import Mathlib

/-!
Shallow embedding of the value-flow reconciliation engine of
src/corp_ledger.py: the source tables, the five extraction rules of
rebuild_member_flows, the aggregation functions get_flow_totals and
get_member_net_values, and the share conversion of cmd_dashboard.

SQLite REAL values are modelled as rationals; SQL NULL as Option.
-/

namespace CorpLedger

/-- A row of the donations table (journal_esi_id, character_id, amount,
description are the columns read by the rebuild). -/
structure Donation where
  journal_esi_id : Option Int
  character_id : Option Int
  amount : Option ℚ
  description : Option String
  deriving DecidableEq, Repr

/-- A row of the contracts table (columns read by the rebuild). -/
structure Contract where
  contract_id : Int
  issuer_id : Option Int
  assignee_id : Option Int
  status : Option String
  for_corporation : Option Int
  price : Option ℚ
  janice_immediate_split : Option ℚ
  deriving DecidableEq, Repr

/-- A row of the industry_jobs table (columns read by the rebuild). -/
structure IndustryJob where
  job_id : Int
  installer_id : Option Int
  product_type_id : Option Int
  runs : Option Int
  cost : Option ℚ
  status : Option String
  deriving DecidableEq, Repr

/-- A row of the market_orders table (columns read by the rebuild). -/
structure MarketOrder where
  order_id : Int
  issued_by : Option Int
  price : Option ℚ
  volume_total : Option Int
  volume_remain : Option Int
  is_buy_order : Option Int
  state : Option String
  is_history : Option Int
  deriving DecidableEq, Repr

/-- A row of the member_flows table as inserted by the rebuild
(character_id and value_isk are NOT NULL in the schema; id and
created_at are generated by the store and not modelled). -/
structure FlowRecord where
  character_id : Int
  direction : String
  source : String
  contract_id : Option Int
  journal_esi_id : Option Int
  value_isk : ℚ
  note : String
  deriving DecidableEq, Repr

/-- The four source tables the rebuild reads. -/
structure SourceTables where
  donations : List Donation
  contracts : List Contract
  industry_jobs : List IndustryJob
  market_orders : List MarketOrder
  deriving DecidableEq, Repr

/-- Python str(x) for an optional integer column, used to build notes. -/
def optIntStr : Option Int → String
  | none => "None"
  | some n => toString n

/-- Loop body of the wallet-donation rule: skip when character_id or
amount is NULL, else insert one in/wallet record (description
truncated to 200 characters, NULL description as empty string). -/
def walletFlowsPer (d : Donation) : List FlowRecord :=
  match d.character_id, d.amount with
  | some cid, some amt =>
      [{ character_id := cid, direction := "in", source := "wallet",
         contract_id := none, journal_esi_id := d.journal_esi_id,
         value_isk := amt, note := (d.description.getD "").take 200 }]
  | _, _ => []

/-- Rule W: one pass over the donations table (its SELECT has no WHERE
clause; the skipping happens in the loop body). -/
def walletFlows (ds : List Donation) : List FlowRecord :=
  ds.flatMap walletFlowsPer

/-- WHERE clause of the Rule C-IN SELECT:
(price IS NULL OR price = 0) AND status = 'finished' AND
janice_immediate_split IS NOT NULL. -/
def contractInSel (c : Contract) : Bool :=
  decide ((c.price = none ∨ c.price = some 0) ∧ c.status = some "finished" ∧
    c.janice_immediate_split ≠ none)

/-- Loop body of Rule C-IN: skip when issuer_id or the appraisal value
is NULL, else insert one in/contract_in record for the issuer. -/
def contractInEmit (c : Contract) : List FlowRecord :=
  match c.issuer_id, c.janice_immediate_split with
  | some iid, some v =>
      [{ character_id := iid, direction := "in", source := "contract_in",
         contract_id := some c.contract_id, journal_esi_id := none,
         value_isk := v, note := "Donation contract to corp" }]
  | _, _ => []

/-- Rule C-IN: SELECT with WHERE clause, then the loop body per row. -/
def contractInFlows (cs : List Contract) : List FlowRecord :=
  (cs.filter contractInSel).flatMap contractInEmit

/-- WHERE clause of the Rule C-OUT SELECT:
for_corporation = 1 AND price IS NOT NULL AND status = 'finished' AND
janice_immediate_split IS NOT NULL. -/
def contractOutSel (c : Contract) : Bool :=
  decide (c.for_corporation = some 1 ∧ c.price ≠ none ∧
    c.status = some "finished" ∧ c.janice_immediate_split ≠ none)

/-- Loop body of Rule C-OUT: skip when assignee_id or the appraisal
value is NULL; compute subsidy = appraisal - price (NULL price read as
0 by the Python expression float(price or 0)); skip when subsidy <= 0;
else insert the out/contract_out record and its companion
in/contract_out_subsidy record (10 percent) for the assignee. -/
def contractOutEmit (c : Contract) : List FlowRecord :=
  match c.assignee_id, c.janice_immediate_split with
  | some aid, some v =>
      let subsidy : ℚ := v - c.price.getD 0
      if subsidy ≤ 0 then []
      else
        [{ character_id := aid, direction := "out", source := "contract_out",
           contract_id := some c.contract_id, journal_esi_id := none,
           value_isk := subsidy, note := "Corp subsidy / payout" },
         { character_id := aid, direction := "in", source := "contract_out_subsidy",
           contract_id := some c.contract_id, journal_esi_id := none,
           value_isk := subsidy * (1 / 10), note := "Corp Discount Credit" }]
  | _, _ => []

/-- Rule C-OUT: SELECT with WHERE clause, then the loop body per row. -/
def contractOutFlows (cs : List Contract) : List FlowRecord :=
  (cs.filter contractOutSel).flatMap contractOutEmit

/-- WHERE clause of the Rule I SELECT: status = 'delivered' AND cost IS
NOT NULL AND installer_id IS NOT NULL. -/
def industrySel (j : IndustryJob) : Bool :=
  decide (j.status = some "delivered" ∧ j.cost ≠ none ∧ j.installer_id ≠ none)

/-- Note string built for an industry-job record. -/
def industryNote (j : IndustryJob) : String :=
  "Industry job " ++ toString j.job_id ++ ", type " ++
    optIntStr j.product_type_id ++ ", runs " ++ optIntStr j.runs

/-- Loop body of Rule I: one in/industry record per selected job (the
WHERE clause already guarantees installer and cost are non-NULL). -/
def industryEmit (j : IndustryJob) : List FlowRecord :=
  match j.installer_id, j.cost with
  | some iid, some cost =>
      [{ character_id := iid, direction := "in", source := "industry",
         contract_id := none, journal_esi_id := none,
         value_isk := cost, note := (industryNote j).take 200 }]
  | _, _ => []

/-- Rule I: SELECT with WHERE clause, then the loop body per row. -/
def industryFlows (js : List IndustryJob) : List FlowRecord :=
  (js.filter industrySel).flatMap industryEmit

/-- WHERE clause of the Rule M SELECT: is_history = 1 AND is_buy_order
= 0 AND issued_by IS NOT NULL AND price IS NOT NULL. -/
def marketSel (o : MarketOrder) : Bool :=
  decide (o.is_history = some 1 ∧ o.is_buy_order = some 0 ∧
    o.issued_by ≠ none ∧ o.price ≠ none)

/-- Note string built for a market-order record. -/
def marketNote (o : MarketOrder) (sold : ℚ) : String :=
  "Market sell order " ++ toString o.order_id ++ ", state " ++
    (o.state.getD "None") ++ ", sold " ++ toString sold ++ " @ " ++
    toString (o.price.getD 0)

/-- Loop body of Rule M: skip when volume_total is NULL; compute
sold = volume_total - (volume_remain or 0); skip when sold <= 0; else
insert one in/market record worth sold * price * 0.01. -/
def marketEmit (o : MarketOrder) : List FlowRecord :=
  match o.issued_by, o.price, o.volume_total with
  | some iss, some p, some vt =>
      let sold : ℚ := (vt : ℚ) - ((o.volume_remain.getD 0 : Int) : ℚ)
      if sold ≤ 0 then []
      else
        let sale_value : ℚ := sold * p
        let credit : ℚ := sale_value * (1 / 100)
        [{ character_id := iss, direction := "in", source := "market",
           contract_id := none, journal_esi_id := none,
           value_isk := credit, note := (marketNote o sold).take 200 }]
  | _, _, _ => []

/-- Rule M: SELECT with WHERE clause, then the loop body per row. -/
def marketFlows (os : List MarketOrder) : List FlowRecord :=
  (os.filter marketSel).flatMap marketEmit

/-- The list of rows rebuild_member_flows inserts into member_flows
(after DELETE FROM member_flows), in insertion order: Rule W, Rule
C-IN, Rule C-OUT, Rule I, Rule M. -/
def rebuild_member_flows (db : SourceTables) : List FlowRecord :=
  walletFlows db.donations ++ contractInFlows db.contracts ++
    contractOutFlows db.contracts ++ industryFlows db.industry_jobs ++
    marketFlows db.market_orders

/-- get_flow_totals: (total_in, total_out, net) with the two direction
sums COALESCEd to 0 on an empty table and net = total_in - total_out. -/
def get_flow_totals (l : List FlowRecord) : ℚ × ℚ × ℚ :=
  let total_in := (l.map fun r => if r.direction = "in" then r.value_isk else 0).sum
  let total_out := (l.map fun r => if r.direction = "out" then r.value_isk else 0).sum
  (total_in, total_out, total_in - total_out)

/-- Signed contribution of one row to its member's net value, as in
the CASE expression of get_member_net_values. -/
def flowSigned (r : FlowRecord) : ℚ :=
  if r.direction = "in" then r.value_isk
  else if r.direction = "out" then -r.value_isk
  else 0

/-- Net value of one member over the ledger. -/
def memberNet (l : List FlowRecord) (cid : Int) : ℚ :=
  ((l.filter fun r => decide (r.character_id = cid)).map flowSigned).sum

/-- get_member_net_values: GROUP BY character_id, one (member, net)
pair per distinct character_id occurring in the ledger. -/
def get_member_net_values (l : List FlowRecord) : List (Int × ℚ) :=
  ((l.map FlowRecord.character_id).dedup).map fun cid => (cid, memberNet l cid)

/-- The module-level constant SHARE_UNIT_ISK = 1_000_000_000. -/
def SHARE_UNIT_ISK : ℚ := 1000000000

/-- The share-conversion expression shape used by cmd_dashboard and
cmd_export_dataset: net / unit if unit > 0 else 0.0, parameterized by
the value of the global the expression reads. -/
def total_shares_formula (unit net : ℚ) : ℚ :=
  if unit > 0 then net / unit else 0

/-- cmd_dashboard: total_shares = net / SHARE_UNIT_ISK if
SHARE_UNIT_ISK > 0 else 0.0, reading the module constant. -/
def cmd_dashboard_total_shares (net : ℚ) : ℚ :=
  total_shares_formula SHARE_UNIT_ISK net

/-- load_config: custom_share_unit_isk = custom_raw.get("share_unit_isk",
1_000_000_000); the parsed option, with its default. -/
def load_config_custom_share_unit_isk (raw : Option Int) : Int :=
  raw.getD 1000000000


/-- Rule C-IN contribution of a single contract row: the loop body if
the row passes the WHERE clause, nothing otherwise. -/
def contractInPer (c : Contract) : List FlowRecord :=
  if contractInSel c then contractInEmit c else []

/-- Rule C-OUT contribution of a single contract row. -/
def contractOutPer (c : Contract) : List FlowRecord :=
  if contractOutSel c then contractOutEmit c else []

/-- A write statement executed by the rebuild inside its transaction. -/
inductive TxStmt where
  | clear
  | insert (r : FlowRecord)
  deriving DecidableEq, Repr

/-- Effect of one statement on the in-transaction view of member_flows:
DELETE FROM member_flows empties it, INSERT appends one row. -/
def applyStmt (buf : List FlowRecord) : TxStmt → List FlowRecord
  | TxStmt.clear => []
  | TxStmt.insert r => buf ++ [r]

/-- The member_flows statements rebuild_member_flows executes, in
order: DELETE FROM member_flows, then one INSERT per derived row (the
interleaved SELECTs read only the four source tables, which the
statements never touch, so they are not modelled as writes). -/
def rebuildStmts (db : SourceTables) : List TxStmt :=
  TxStmt.clear :: (rebuild_member_flows db).map TxStmt.insert

/-- Committed store state: the ledger visible to readers outside the
open transaction. -/
structure DBState where
  committed : List FlowRecord
  deriving DecidableEq, Repr

/-- Execute statements against the in-transaction view under a failure
oracle: statement number k raises (before taking effect) when
fail k = true, aborting the run with that index. -/
def runStmts (fail : Nat → Bool) : Nat → List FlowRecord → List TxStmt →
    Except Nat (List FlowRecord)
  | _, buf, [] => Except.ok buf
  | k, buf, s :: rest =>
      if fail k then Except.error k
      else runStmts fail (k + 1) (applyStmt buf s) rest

/-- rebuild_member_flows as a transaction against the committed state,
following the sqlite3 semantics the spec assumes of the store: the
implicit transaction buffers the writes, conn.commit() at the end
publishes them, and an exception at any statement (or at the commit
itself) leaves the transaction uncommitted so the store keeps the
previously committed rows. Returns the outcome surfaced to the caller
together with the resulting committed state. -/
def rebuild_tx (fail : Nat → Bool) (db : SourceTables) (s : DBState) :
    Except Nat DBState × DBState :=
  match runStmts fail 0 s.committed (rebuildStmts db) with
  | Except.ok buf =>
      if fail (rebuildStmts db).length then
        (Except.error (rebuildStmts db).length, s)
      else (Except.ok ⟨buf⟩, ⟨buf⟩)
  | Except.error k => (Except.error k, s)

/-- Sample contract for the Rule C-OUT witness (price 100, appraisal 150). -/
def cOutW : Contract := ⟨42, some 5, some 6, some "finished", some 1, some 100, some 150⟩

/-- Sample contract for the Rule C-IN witness (price 0, appraisal 1000000). -/
def cInW : Contract := ⟨7, some 3, none, some "finished", none, some 0, some 1000000⟩

/-- Contract meeting every condition of claim C10 but with appraisal
value 0: non-null appraisal, yet the subsidy guard fires. -/
def c10bad : Contract := ⟨1001, some 7, some 8, some "finished", some 1, some 0, some 0⟩

/-- Source tables containing only c10bad. -/
def db10bad : SourceTables := ⟨[], [c10bad], [], []⟩

/-- Sample overlap contract with positive appraisal 200. -/
def c10w : Contract := ⟨11, some 2, some 3, some "finished", some 1, some 0, some 200⟩

/-- Source tables containing only c10w. -/
def db10w : SourceTables := ⟨[], [c10w], [], []⟩

/-- Sample historical sell order: 100 total, 20 remaining, price 1000. -/
def oMW : MarketOrder := ⟨9, some 5, some 1000, some 100, some 20, some 0, some "expired", some 1⟩

/-- Sample donation row for the Rule W witness. -/
def dW : Donation := ⟨some 777, some 42, some 1000, some "thanks"⟩

/-- Source tables with a single negative-amount donation. -/
def dbNeg : SourceTables := ⟨[⟨some 900, some 1, some (-5), none⟩], [], [], []⟩

/-- Source tables with a single positive donation. -/
def dbPos : SourceTables := ⟨[⟨some 901, some 1, some 7, none⟩], [], [], []⟩

/-- Sample ledger for the aggregation witness. -/
def flowSample : List FlowRecord :=
  [⟨1, "in", "wallet", none, some 1, 10, ""⟩,
   ⟨1, "out", "contract_out", some 2, none, 4, ""⟩,
   ⟨2, "in", "market", none, none, 5, ""⟩]
end CorpLedger

namespace CorpLedger

/-- Every record emitted by the Rule C-IN loop body references its contract. -/
lemma contractInEmit_ref (c : Contract) (r : FlowRecord) (hr : r ∈ contractInEmit c) :
    r.contract_id = some c.contract_id := by
  cases h1 : c.issuer_id with
  | none => simp [contractInEmit, h1] at hr
  | some iid =>
    cases h2 : c.janice_immediate_split with
    | none => simp [contractInEmit, h1, h2] at hr
    | some v =>
      simp [contractInEmit, h1, h2] at hr
      subst hr
      rfl

/-- Every record emitted by the Rule C-OUT loop body references its contract. -/
lemma contractOutEmit_ref (c : Contract) (r : FlowRecord) (hr : r ∈ contractOutEmit c) :
    r.contract_id = some c.contract_id := by
  cases h1 : c.assignee_id with
  | none => simp [contractOutEmit, h1] at hr
  | some aid =>
    cases h2 : c.janice_immediate_split with
    | none => simp [contractOutEmit, h1, h2] at hr
    | some v =>
      simp only [contractOutEmit, h1, h2] at hr
      split at hr
      · simp at hr
      · rcases List.mem_pair.mp hr with h | h <;> (subst h; rfl)

/-- Rule W records carry no contract reference. -/
lemma walletFlowsPer_ref (d : Donation) (r : FlowRecord) (hr : r ∈ walletFlowsPer d) :
    r.contract_id = none := by
  cases h1 : d.character_id with
  | none => simp [walletFlowsPer, h1] at hr
  | some cid =>
    cases h2 : d.amount with
    | none => simp [walletFlowsPer, h1, h2] at hr
    | some amt =>
      simp [walletFlowsPer, h1, h2] at hr
      subst hr
      rfl

/-- Rule I records carry no contract reference. -/
lemma industryEmit_ref (j : IndustryJob) (r : FlowRecord) (hr : r ∈ industryEmit j) :
    r.contract_id = none := by
  cases h1 : j.installer_id with
  | none => simp [industryEmit, h1] at hr
  | some iid =>
    cases h2 : j.cost with
    | none => simp [industryEmit, h1, h2] at hr
    | some cost =>
      simp [industryEmit, h1, h2] at hr
      subst hr
      rfl

/-- Rule M records carry no contract reference. -/
lemma marketEmit_ref (o : MarketOrder) (r : FlowRecord) (hr : r ∈ marketEmit o) :
    r.contract_id = none := by
  cases h1 : o.issued_by with
  | none => simp [marketEmit, h1] at hr
  | some iss =>
    cases h2 : o.price with
    | none => simp [marketEmit, h1, h2] at hr
    | some p =>
      cases h3 : o.volume_total with
      | none => simp [marketEmit, h1, h2, h3] at hr
      | some vt =>
        simp only [marketEmit, h1, h2, h3] at hr
        split at hr
        · simp at hr
        · simp at hr
          subst hr
          rfl

/-- A flatMap over rows none of which carries the wanted contract id
survives the reference filter as the empty list. -/
lemma flatMap_filter_ref_nil (per : Contract → List FlowRecord)
    (href : ∀ c r, r ∈ per c → r.contract_id = some c.contract_id)
    (cs : List Contract) (cid : Int)
    (h : ∀ c ∈ cs, c.contract_id ≠ cid) :
    (cs.flatMap per).filter (fun r => decide (r.contract_id = some cid)) = [] := by
  rw [List.filter_eq_nil_iff]
  intro r hr
  rw [List.mem_flatMap] at hr
  obtain ⟨c, hc, hrc⟩ := hr
  have hrid := href c r hrc
  simpa [hrid] using h c hc

/-- Filtering a per-contract flatMap down to one contract id yields
exactly that contract's contribution, provided contract ids are unique
(the UNIQUE constraint of the contracts table). -/
lemma flatMap_filter_ref (per : Contract → List FlowRecord)
    (href : ∀ c r, r ∈ per c → r.contract_id = some c.contract_id)
    (cs : List Contract) (c : Contract)
    (hmem : c ∈ cs) (hnodup : (cs.map Contract.contract_id).Nodup) :
    (cs.flatMap per).filter (fun r => decide (r.contract_id = some c.contract_id)) = per c := by
  obtain ⟨s, t, rfl⟩ := List.append_of_mem hmem
  rw [List.map_append, List.map_cons, List.nodup_append] at hnodup
  obtain ⟨hs_nd, hct_nd, hdisj⟩ := hnodup
  have hs : ∀ x ∈ s, x.contract_id ≠ c.contract_id := by
    intro x hx hxc
    exact hdisj (hxc ▸ List.mem_map_of_mem Contract.contract_id hx)
      (List.mem_cons_self _ _)
  have ht : ∀ x ∈ t, x.contract_id ≠ c.contract_id := by
    intro x hx hxc
    rw [List.nodup_cons] at hct_nd
    exact hct_nd.1 (hxc ▸ List.mem_map_of_mem Contract.contract_id hx)
  rw [List.flatMap_append, List.flatMap_cons, List.filter_append, List.filter_append,
    flatMap_filter_ref_nil per href s c.contract_id hs,
    flatMap_filter_ref_nil per href t c.contract_id ht]
  rw [List.filter_eq_self.mpr (fun r hr => by simp [href c r hr])]
  simp

end CorpLedger

namespace CorpLedger

/-- Contribution of a single ite term summed along a key list missing
the key: zero. -/
lemma sum_map_ite_zero_of_not_mem (k0 : Int) (c : ℚ) (ks : List Int) (h : k0 ∉ ks) :
    (ks.map fun k => if k0 = k then c else 0).sum = 0 := by
  induction ks with
  | nil => simp
  | cons k t ih =>
    rw [List.map_cons, List.sum_cons]
    have hne : k0 ≠ k := fun hk => h (by rw [hk]; exact List.mem_cons_self k t)
    rw [if_neg hne, ih (fun hm => h (List.mem_cons_of_mem k hm))]
    simp

/-- Contribution of a single ite term summed along a duplicate-free key
list containing the key: the term itself. -/
lemma sum_map_ite_eq_of_mem (k0 : Int) (c : ℚ) (ks : List Int)
    (hnd : ks.Nodup) (hk : k0 ∈ ks) :
    (ks.map fun k => if k0 = k then c else 0).sum = c := by
  induction ks with
  | nil => simp at hk
  | cons k t ih =>
    rw [List.nodup_cons] at hnd
    rw [List.map_cons, List.sum_cons]
    by_cases h : k0 = k
    · rw [if_pos h, sum_map_ite_zero_of_not_mem k0 c t (h ▸ hnd.1)]
      simp
    · rw [if_neg h]
      rcases List.mem_cons.mp hk with h1 | h1
      · exact absurd h1 h
      · rw [ih hnd.2 h1]
        simp

/-- Pointwise sums distribute over a key list. -/
lemma sum_map_add (g h : Int → ℚ) (ks : List Int) :
    (ks.map fun k => g k + h k).sum = (ks.map g).sum + (ks.map h).sum := by
  induction ks with
  | nil => simp
  | cons k t ih =>
    simp only [List.map_cons, List.sum_cons, ih]
    ring

/-- Summing each member fiber along a duplicate-free key list covering
all rows reproduces the total sum. -/
lemma sum_fiber_aux (f : FlowRecord → ℚ) (ks : List Int) (hnd : ks.Nodup)
    (l : List FlowRecord) (hcov : ∀ r ∈ l, r.character_id ∈ ks) :
    (ks.map fun k => ((l.filter fun r => decide (r.character_id = k)).map f).sum).sum
      = (l.map f).sum := by
  induction l with
  | nil => simp
  | cons r t ih =>
    have hrk : r.character_id ∈ ks := hcov r (List.mem_cons_self r t)
    have htcov : ∀ x ∈ t, x.character_id ∈ ks :=
      fun x hx => hcov x (List.mem_cons_of_mem r hx)
    have hsplit : ∀ k : Int,
        (((r :: t).filter fun x => decide (x.character_id = k)).map f).sum
          = (if r.character_id = k then f r else 0)
            + ((t.filter fun x => decide (x.character_id = k)).map f).sum := by
      intro k
      by_cases h : r.character_id = k
      · simp [List.filter_cons, h]
      · simp [List.filter_cons, h]
    simp only [hsplit]
    rw [sum_map_add, sum_map_ite_eq_of_mem r.character_id (f r) ks hnd hrk, ih htcov]
    simp

/-- The per-member net values of get_member_net_values sum to the
signed sum of the whole ledger. -/
lemma member_net_values_sum (l : List FlowRecord) :
    ((get_member_net_values l).map Prod.snd).sum = (l.map flowSigned).sum := by
  unfold get_member_net_values memberNet
  rw [List.map_map]
  exact sum_fiber_aux flowSigned ((l.map FlowRecord.character_id).dedup)
    (List.nodup_dedup _) l
    (fun r hr => List.mem_dedup.mpr (List.mem_map_of_mem FlowRecord.character_id hr))

/-- flowSigned written as the difference of the two direction terms
used by get_flow_totals. -/
lemma flowSigned_eq_sub (r : FlowRecord) :
    flowSigned r = (if r.direction = "in" then r.value_isk else 0)
      - (if r.direction = "out" then r.value_isk else 0) := by
  unfold flowSigned
  by_cases h1 : r.direction = "in"
  · rw [if_pos h1, if_pos h1, if_neg (fun h2 => by simp [h1] at h2)]
    ring
  · rw [if_neg h1, if_neg h1]
    by_cases h2 : r.direction = "out"
    · rw [if_pos h2, if_pos h2]
      ring
    · rw [if_neg h2, if_neg h2]
      ring

/-- The net of get_flow_totals equals the signed sum of the ledger. -/
lemma totals_net_eq_sum_signed (l : List FlowRecord) :
    (get_flow_totals l).2.2 = (l.map flowSigned).sum := by
  show (l.map fun r => if r.direction = "in" then r.value_isk else 0).sum
      - (l.map fun r => if r.direction = "out" then r.value_isk else 0).sum
    = (l.map flowSigned).sum
  induction l with
  | nil => simp
  | cons r t ih =>
    simp only [List.map_cons, List.sum_cons, flowSigned_eq_sub]
    rw [← ih]
    ring

/-- Direction sums written as sums over the filtered sub-ledger. -/
lemma sum_ite_eq_sum_filter (p : FlowRecord → Prop) [DecidablePred p] (l : List FlowRecord) :
    (l.map fun r => if p r then r.value_isk else 0).sum
      = ((l.filter fun r => decide (p r)).map FlowRecord.value_isk).sum := by
  induction l with
  | nil => simp
  | cons r t ih =>
    by_cases h : p r
    · simp [List.filter_cons, h, ih]
    · simp [List.filter_cons, h, ih]

end CorpLedger

namespace CorpLedger


/-- A successful run of the statements computes their left fold. -/
lemma runStmts_ok_eq_foldl (fail : Nat → Bool) :
    ∀ (stmts : List TxStmt) (k : Nat) (buf out : List FlowRecord),
      runStmts fail k buf stmts = Except.ok out → out = stmts.foldl applyStmt buf := by
  intro stmts
  induction stmts with
  | nil =>
    intro k buf out h
    simp only [runStmts] at h
    cases h
    rfl
  | cons s rest ih =>
    intro k buf out h
    simp only [runStmts] at h
    by_cases hk : fail k
    · simp [hk] at h
    · rw [if_neg hk] at h
      rw [List.foldl_cons]
      exact ih (k + 1) (applyStmt buf s) out h

/-- With no failures, running the statements succeeds with their fold. -/
lemma runStmts_nofail :
    ∀ (stmts : List TxStmt) (k : Nat) (buf : List FlowRecord),
      runStmts (fun _ => false) k buf stmts = Except.ok (stmts.foldl applyStmt buf) := by
  intro stmts
  induction stmts with
  | nil => intro k buf; rfl
  | cons s rest ih =>
    intro k buf
    simp only [runStmts, if_neg]
    rw [List.foldl_cons]
    exact ih (k + 1) (applyStmt buf s)

/-- Folding the insert statements appends the inserted rows. -/
lemma foldl_applyStmt_insert (l : List FlowRecord) :
    ∀ acc : List FlowRecord, (l.map TxStmt.insert).foldl applyStmt acc = acc ++ l := by
  induction l with
  | nil => intro acc; simp
  | cons r t ih =>
    intro acc
    rw [List.map_cons, List.foldl_cons]
    rw [ih (applyStmt acc (TxStmt.insert r))]
    simp [applyStmt]

/-- Folding the whole rebuild statement list from any prior ledger
yields exactly the derived rows: the leading DELETE discards the prior
contents. -/
lemma rebuildStmts_foldl (db : SourceTables) (buf : List FlowRecord) :
    (rebuildStmts db).foldl applyStmt buf = rebuild_member_flows db := by
  unfold rebuildStmts
  rw [List.foldl_cons, foldl_applyStmt_insert]
  rfl

/-- With no failures the transaction commits the derived ledger. -/
lemma rebuild_tx_nofail (db : SourceTables) (s : DBState) :
    rebuild_tx (fun _ => false) db s =
      (Except.ok ⟨rebuild_member_flows db⟩, ⟨rebuild_member_flows db⟩) := by
  unfold rebuild_tx
  rw [runStmts_nofail (rebuildStmts db) 0 s.committed]
  simp [rebuildStmts_foldl]

end CorpLedger

namespace CorpLedger


lemma contractInFlows_eq_flatMap (cs : List Contract) :
    contractInFlows cs = cs.flatMap contractInPer := by
  unfold contractInFlows contractInPer
  induction cs with
  | nil => rfl
  | cons c t ih =>
    rw [List.flatMap_cons, List.filter_cons]
    by_cases h : contractInSel c = true
    · rw [if_pos h, if_pos h, List.flatMap_cons, ih]
    · rw [if_neg h, if_neg h, ih]
      simp

lemma contractOutFlows_eq_flatMap (cs : List Contract) :
    contractOutFlows cs = cs.flatMap contractOutPer := by
  unfold contractOutFlows contractOutPer
  induction cs with
  | nil => rfl
  | cons c t ih =>
    rw [List.flatMap_cons, List.filter_cons]
    by_cases h : contractOutSel c = true
    · rw [if_pos h, if_pos h, List.flatMap_cons, ih]
    · rw [if_neg h, if_neg h, ih]
      simp

lemma contractInPer_ref (c : Contract) (r : FlowRecord) (hr : r ∈ contractInPer c) :
    r.contract_id = some c.contract_id := by
  unfold contractInPer at hr
  by_cases h : contractInSel c = true
  · rw [if_pos h] at hr
    exact contractInEmit_ref c r hr
  · rw [if_neg h] at hr
    simp at hr

lemma contractOutPer_ref (c : Contract) (r : FlowRecord) (hr : r ∈ contractOutPer c) :
    r.contract_id = some c.contract_id := by
  unfold contractOutPer at hr
  by_cases h : contractOutSel c = true
  · rw [if_pos h] at hr
    exact contractOutEmit_ref c r hr
  · rw [if_neg h] at hr
    simp at hr

/-- Evaluation of the Rule C-IN contribution on a qualifying row. -/
lemma contractInPer_eval (c : Contract) (iid : Int) (v : ℚ)
    (hp : c.price = none ∨ c.price = some 0) (hst : c.status = some "finished")
    (hj : c.janice_immediate_split = some v) (hi : c.issuer_id = some iid) :
    contractInPer c =
      [{ character_id := iid, direction := "in", source := "contract_in",
         contract_id := some c.contract_id, journal_esi_id := none,
         value_isk := v, note := "Donation contract to corp" }] := by
  have hsel : contractInSel c = true := by
    unfold contractInSel
    rw [decide_eq_true_eq]
    exact ⟨hp, hst, by rw [hj]; simp⟩
  unfold contractInPer
  rw [if_pos hsel]
  unfold contractInEmit
  rw [hi, hj]

/-- The Rule C-IN contribution of a non-qualifying row is empty. -/
lemma contractInPer_nil (c : Contract)
    (h : ¬((c.price = none ∨ c.price = some 0) ∧ c.status = some "finished" ∧
      c.janice_immediate_split ≠ none ∧ c.issuer_id ≠ none)) :
    contractInPer c = [] := by
  unfold contractInPer
  by_cases hsel : contractInSel c = true
  · rw [if_pos hsel]
    have hc := of_decide_eq_true hsel
    have hiss : c.issuer_id = none := by
      by_cases hio : c.issuer_id = none
      · exact hio
      · exact absurd ⟨hc.1, hc.2.1, hc.2.2, hio⟩ h
    unfold contractInEmit
    rw [hiss]
  · rw [if_neg hsel]

/-- Evaluation of the Rule C-OUT contribution on a qualifying row with
positive subsidy. -/
lemma contractOutPer_pair (c : Contract) (aid : Int) (p v : ℚ)
    (hfc : c.for_corporation = some 1) (hp : c.price = some p)
    (hst : c.status = some "finished") (hj : c.janice_immediate_split = some v)
    (ha : c.assignee_id = some aid) (hpos : 0 < v - p) :
    contractOutPer c =
      [{ character_id := aid, direction := "out", source := "contract_out",
         contract_id := some c.contract_id, journal_esi_id := none,
         value_isk := v - p, note := "Corp subsidy / payout" },
       { character_id := aid, direction := "in", source := "contract_out_subsidy",
         contract_id := some c.contract_id, journal_esi_id := none,
         value_isk := (v - p) * (1 / 10), note := "Corp Discount Credit" }] := by
  have hsel : contractOutSel c = true := by
    unfold contractOutSel
    rw [decide_eq_true_eq]
    exact ⟨hfc, by rw [hp]; simp, hst, by rw [hj]; simp⟩
  unfold contractOutPer
  rw [if_pos hsel]
  unfold contractOutEmit
  rw [ha, hj, hp]
  simp only [Option.getD_some]
  rw [if_neg (not_le.mpr hpos)]

/-- The Rule C-OUT contribution of a qualifying row with non-positive
subsidy is empty. -/
lemma contractOutPer_nil_of_nonpos (c : Contract) (p v : ℚ)
    (hp : c.price = some p) (hj : c.janice_immediate_split = some v)
    (hnp : v - p ≤ 0) :
    contractOutPer c = [] := by
  unfold contractOutPer
  by_cases hsel : contractOutSel c = true
  · rw [if_pos hsel]
    unfold contractOutEmit
    cases hass : c.assignee_id with
    | none => rfl
    | some aid =>
      rw [hj, hp]
      simp only [Option.getD_some]
      rw [if_pos hnp]
  · rw [if_neg hsel]

/-- Rule W output never references a contract. -/
lemma walletFlows_filter_ref (ds : List Donation) (cid : Int) :
    (walletFlows ds).filter (fun r => decide (r.contract_id = some cid)) = [] := by
  rw [List.filter_eq_nil_iff]
  intro r hr
  rw [walletFlows, List.mem_flatMap] at hr
  obtain ⟨d, _, hrd⟩ := hr
  simp [walletFlowsPer_ref d r hrd]

/-- Rule I output never references a contract. -/
lemma industryFlows_filter_ref (js : List IndustryJob) (cid : Int) :
    (industryFlows js).filter (fun r => decide (r.contract_id = some cid)) = [] := by
  rw [List.filter_eq_nil_iff]
  intro r hr
  rw [industryFlows, List.mem_flatMap] at hr
  obtain ⟨j, _, hrj⟩ := hr
  simp [industryEmit_ref j r hrj]

/-- Rule M output never references a contract. -/
lemma marketFlows_filter_ref (os : List MarketOrder) (cid : Int) :
    (marketFlows os).filter (fun r => decide (r.contract_id = some cid)) = [] := by
  rw [List.filter_eq_nil_iff]
  intro r hr
  rw [marketFlows, List.mem_flatMap] at hr
  obtain ⟨o, _, hro⟩ := hr
  simp [marketEmit_ref o r hro]

end CorpLedger

namespace CorpLedger

/-- Rule W records are non-negative when donation amounts are. -/
lemma walletFlows_nonneg (ds : List Donation)
    (h : ∀ d ∈ ds, ∀ a, d.amount = some a → 0 ≤ a) :
    ∀ r ∈ walletFlows ds, 0 ≤ r.value_isk := by
  intro r hr
  rw [walletFlows, List.mem_flatMap] at hr
  obtain ⟨d, hd, hrd⟩ := hr
  cases h1 : d.character_id with
  | none => simp [walletFlowsPer, h1] at hrd
  | some cid =>
    cases h2 : d.amount with
    | none => simp [walletFlowsPer, h1, h2] at hrd
    | some amt =>
      simp [walletFlowsPer, h1, h2] at hrd
      subst hrd
      exact h d hd amt h2

/-- Rule C-IN records are non-negative when appraisal values are. -/
lemma contractInFlows_nonneg (cs : List Contract)
    (h : ∀ c ∈ cs, ∀ v, c.janice_immediate_split = some v → 0 ≤ v) :
    ∀ r ∈ contractInFlows cs, 0 ≤ r.value_isk := by
  intro r hr
  rw [contractInFlows, List.mem_flatMap] at hr
  obtain ⟨c, hc, hrc⟩ := hr
  have hcs : c ∈ cs := List.mem_of_mem_filter hc
  cases h1 : c.issuer_id with
  | none => simp [contractInEmit, h1] at hrc
  | some iid =>
    cases h2 : c.janice_immediate_split with
    | none => simp [contractInEmit, h1, h2] at hrc
    | some v =>
      simp [contractInEmit, h1, h2] at hrc
      subst hrc
      exact h c hcs v h2

/-- Rule C-OUT records are non-negative unconditionally: the loop
skips any non-positive subsidy before inserting either record. -/
lemma contractOutFlows_nonneg (cs : List Contract) :
    ∀ r ∈ contractOutFlows cs, 0 ≤ r.value_isk := by
  intro r hr
  rw [contractOutFlows, List.mem_flatMap] at hr
  obtain ⟨c, _, hrc⟩ := hr
  cases h1 : c.assignee_id with
  | none => simp [contractOutEmit, h1] at hrc
  | some aid =>
    cases h2 : c.janice_immediate_split with
    | none => simp [contractOutEmit, h1, h2] at hrc
    | some v =>
      simp only [contractOutEmit, h1, h2] at hrc
      split at hrc
      · simp at hrc
      · rename_i hps
        have hpos : (0 : ℚ) < v - c.price.getD 0 := not_le.mp hps
        rcases List.mem_pair.mp hrc with h | h <;> subst h
        · exact le_of_lt hpos
        · exact mul_nonneg (le_of_lt hpos) (by norm_num)

/-- Rule I records are non-negative when job costs are. -/
lemma industryFlows_nonneg (js : List IndustryJob)
    (h : ∀ j ∈ js, ∀ x, j.cost = some x → 0 ≤ x) :
    ∀ r ∈ industryFlows js, 0 ≤ r.value_isk := by
  intro r hr
  rw [industryFlows, List.mem_flatMap] at hr
  obtain ⟨j, hj, hrj⟩ := hr
  have hjs : j ∈ js := List.mem_of_mem_filter hj
  cases h1 : j.installer_id with
  | none => simp [industryEmit, h1] at hrj
  | some iid =>
    cases h2 : j.cost with
    | none => simp [industryEmit, h1, h2] at hrj
    | some cost =>
      simp [industryEmit, h1, h2] at hrj
      subst hrj
      exact h j hjs cost h2

/-- Rule M records are non-negative when order prices are: the sold
volume is checked positive before the insert. -/
lemma marketFlows_nonneg (os : List MarketOrder)
    (h : ∀ o ∈ os, ∀ p, o.price = some p → 0 ≤ p) :
    ∀ r ∈ marketFlows os, 0 ≤ r.value_isk := by
  intro r hr
  rw [marketFlows, List.mem_flatMap] at hr
  obtain ⟨o, ho, hro⟩ := hr
  have hos : o ∈ os := List.mem_of_mem_filter ho
  cases h1 : o.issued_by with
  | none => simp [marketEmit, h1] at hro
  | some iss =>
    cases h2 : o.price with
    | none => simp [marketEmit, h1, h2] at hro
    | some p =>
      cases h3 : o.volume_total with
      | none => simp [marketEmit, h1, h2, h3] at hro
      | some vt =>
        simp only [marketEmit, h1, h2, h3] at hro
        split at hro
        · simp at hro
        · rename_i hps
          have hpos : (0 : ℚ) < (vt : ℚ) - ((o.volume_remain.getD 0 : Int) : ℚ) :=
            not_le.mp hps
          simp at hro
          subst hro
          exact mul_nonneg (mul_nonneg (le_of_lt hpos) (h o hos p h2)) (by norm_num)

end CorpLedger

namespace CorpLedger


/-- C1: for every contract that is organization-directed, has a
non-null price, status finished, a non-null appraisal value and a
non-null assignee, the rebuild computes subsidy = appraisal - price;
when subsidy <= 0 Rule C-OUT emits no record referencing that
contract, and when subsidy > 0 it emits exactly two records for the
assignee referencing it: out/contract_out worth subsidy and
in/contract_out_subsidy worth subsidy * 0.10. -/
theorem C1_contract_out_subsidy_rule (cs : List Contract) (c : Contract)
    (p v : ℚ) (aid : Int)
    (hmem : c ∈ cs) (hnodup : (cs.map Contract.contract_id).Nodup)
    (hfc : c.for_corporation = some 1) (hp : c.price = some p)
    (hst : c.status = some "finished") (hj : c.janice_immediate_split = some v)
    (ha : c.assignee_id = some aid) :
    (v - p ≤ 0 →
      (contractOutFlows cs).filter
        (fun r => decide (r.contract_id = some c.contract_id)) = []) ∧
    (0 < v - p →
      (contractOutFlows cs).filter
        (fun r => decide (r.contract_id = some c.contract_id)) =
        [{ character_id := aid, direction := "out", source := "contract_out",
           contract_id := some c.contract_id, journal_esi_id := none,
           value_isk := v - p, note := "Corp subsidy / payout" },
         { character_id := aid, direction := "in", source := "contract_out_subsidy",
           contract_id := some c.contract_id, journal_esi_id := none,
           value_isk := (v - p) * (1 / 10), note := "Corp Discount Credit" }]) := by
  have hfib : (contractOutFlows cs).filter
      (fun r => decide (r.contract_id = some c.contract_id)) = contractOutPer c := by
    rw [contractOutFlows_eq_flatMap]
    exact flatMap_filter_ref contractOutPer contractOutPer_ref cs c hmem hnodup
  constructor
  · intro hnp
    rw [hfib]
    exact contractOutPer_nil_of_nonpos c p v hp hj hnp
  · intro hpos
    rw [hfib]
    exact contractOutPer_pair c aid p v hfc hp hst hj ha hpos

/-- C1 witness: the spec example price 100, appraisal 150 yields the
out/contract_out record worth 50 and the in/contract_out_subsidy
record worth 5. -/
theorem C1_witness :
    (contractOutFlows [cOutW]).filter
      (fun r => decide (r.contract_id = some (42 : Int))) =
      [{ character_id := 6, direction := "out", source := "contract_out",
         contract_id := some 42, journal_esi_id := none,
         value_isk := (150 : ℚ) - 100, note := "Corp subsidy / payout" },
       { character_id := 6, direction := "in", source := "contract_out_subsidy",
         contract_id := some 42, journal_esi_id := none,
         value_isk := ((150 : ℚ) - 100) * (1 / 10), note := "Corp Discount Credit" }] ∧
    (150 : ℚ) - 100 = 50 ∧ ((150 : ℚ) - 100) * (1 / 10) = 5 := by
  refine ⟨?_, by norm_num, by norm_num⟩
  exact (C1_contract_out_subsidy_rule [cOutW] cOutW 100 150 6
    (List.mem_singleton.mpr rfl) (by decide) rfl rfl rfl rfl rfl).2 (by norm_num)

/-- C2: for every contract with null-or-zero price, status finished,
non-null appraisal value and non-null issuer, the rebuild emits
exactly one in/contract_in record for the issuer worth the appraisal
value and referencing that contract; any contract missing one of these
conditions contributes no contract_in record. -/
theorem C2_contract_in_rule (cs : List Contract) (c : Contract) (iid : Int) (v : ℚ)
    (hmem : c ∈ cs) (hnodup : (cs.map Contract.contract_id).Nodup)
    (hp : c.price = none ∨ c.price = some 0) (hst : c.status = some "finished")
    (hj : c.janice_immediate_split = some v) (hi : c.issuer_id = some iid) :
    (contractInFlows cs).filter
      (fun r => decide (r.contract_id = some c.contract_id)) =
      [{ character_id := iid, direction := "in", source := "contract_in",
         contract_id := some c.contract_id, journal_esi_id := none,
         value_isk := v, note := "Donation contract to corp" }] ∧
    (∀ c' : Contract,
      ¬((c'.price = none ∨ c'.price = some 0) ∧ c'.status = some "finished" ∧
        c'.janice_immediate_split ≠ none ∧ c'.issuer_id ≠ none) →
      contractInFlows [c'] = []) := by
  constructor
  · rw [contractInFlows_eq_flatMap,
      flatMap_filter_ref contractInPer contractInPer_ref cs c hmem hnodup]
    exact contractInPer_eval c iid v hp hst hj hi
  · intro c' h
    rw [contractInFlows_eq_flatMap]
    simp [contractInPer_nil c' h]

/-- C2 witness: the spec example price 0, appraisal 1000000 yields one
in/contract_in record of value 1000000 for the issuer; the same row
with status outstanding contributes nothing. -/
theorem C2_witness :
    (contractInFlows [cInW]).filter
      (fun r => decide (r.contract_id = some (7 : Int))) =
      [{ character_id := 3, direction := "in", source := "contract_in",
         contract_id := some 7, journal_esi_id := none,
         value_isk := 1000000, note := "Donation contract to corp" }] ∧
    contractInFlows [{ cInW with status := some "outstanding" }] = [] := by
  constructor
  · exact (C2_contract_in_rule [cInW] cInW 3 1000000 (List.mem_singleton.mpr rfl)
      (by decide) (Or.inr rfl) rfl rfl rfl).1
  · exact (C2_contract_in_rule [cInW] cInW 3 1000000 (List.mem_singleton.mpr rfl)
      (by decide) (Or.inr rfl) rfl rfl rfl).2 _ (by decide)

end CorpLedger

namespace CorpLedger

/-- C3 counterexample: a donation row with amount -5 makes the rebuild
store a Flow Record with negative value_isk, so the invariant does not
hold regardless of source-row contents. -/
theorem C3_counterexample :
    ¬ (∀ r ∈ rebuild_member_flows dbNeg, 0 ≤ r.value_isk) := by decide

/-- C3 (amended): every Flow Record written by a rebuild has
non-negative value provided the source rows carry non-negative
donation amounts, appraisal values, industry costs and market prices;
sign is carried only by the direction field. -/
theorem C3_value_nonneg (db : SourceTables)
    (hd : ∀ d ∈ db.donations, ∀ a, d.amount = some a → 0 ≤ a)
    (hc : ∀ c ∈ db.contracts, ∀ v, c.janice_immediate_split = some v → 0 ≤ v)
    (hi : ∀ j ∈ db.industry_jobs, ∀ x, j.cost = some x → 0 ≤ x)
    (hm : ∀ o ∈ db.market_orders, ∀ p, o.price = some p → 0 ≤ p) :
    ∀ r ∈ rebuild_member_flows db, 0 ≤ r.value_isk := by
  intro r hr
  unfold rebuild_member_flows at hr
  simp only [List.mem_append] at hr
  rcases hr with ((((h | h) | h) | h) | h)
  · exact walletFlows_nonneg db.donations hd r h
  · exact contractInFlows_nonneg db.contracts hc r h
  · exact contractOutFlows_nonneg db.contracts r h
  · exact industryFlows_nonneg db.industry_jobs hi r h
  · exact marketFlows_nonneg db.market_orders hm r h

/-- C3 witness: the amended non-negativity theorem applied to a
concrete table set with a positive donation. -/
theorem C3_witness :
    0 ≤ FlowRecord.value_isk
      ⟨1, "in", "wallet", none, some 901, 7, String.take "" 200⟩ := by
  refine C3_value_nonneg dbPos ?_ ?_ ?_ ?_
    ⟨1, "in", "wallet", none, some 901, 7, String.take "" 200⟩ (List.Mem.head _)
  · intro d hdm a ha
    rw [show dbPos.donations = [⟨some 901, some 1, some 7, none⟩] from rfl,
      List.mem_singleton] at hdm
    subst hdm
    injection ha with h
    subst h
    norm_num
  · intro c hcm
    exact absurd hcm (List.not_mem_nil c)
  · intro j hjm
    exact absurd hjm (List.not_mem_nil j)
  · intro o hom
    exact absurd hom (List.not_mem_nil o)

/-- C4 counterexample: with the configuration option share_unit_isk
set to 0 (non-positive) and net value 5, the dashboard still divides
by the module constant and yields a non-zero share count, so the
configured option neither drives the division nor triggers the
zero-shares fallback. -/
theorem C4_counterexample :
    load_config_custom_share_unit_isk (some 0) = 0 ∧
    cmd_dashboard_total_shares 5 ≠ 0 := by
  constructor
  · rfl
  · unfold cmd_dashboard_total_shares total_shares_formula SHARE_UNIT_ISK
    norm_num

/-- C4 (amended): the dashboard computes shares = net / SHARE_UNIT_ISK
where SHARE_UNIT_ISK is the module constant 1000000000; the guard of
the expression yields 0 instead of dividing when its unit is
non-positive; the configuration option share_unit_isk is parsed with
default 1000000000 but is not used by the computation. -/
theorem C4_share_conversion (net unit : ℚ) (raw : Option Int) :
    cmd_dashboard_total_shares net = net / SHARE_UNIT_ISK ∧
    SHARE_UNIT_ISK = 1000000000 ∧
    (unit ≤ 0 → total_shares_formula unit net = 0) ∧
    (0 < unit → total_shares_formula unit net = net / unit) ∧
    load_config_custom_share_unit_isk raw = raw.getD 1000000000 ∧
    cmd_dashboard_total_shares net = total_shares_formula SHARE_UNIT_ISK net := by
  refine ⟨?_, rfl, ?_, ?_, rfl, rfl⟩
  · unfold cmd_dashboard_total_shares total_shares_formula SHARE_UNIT_ISK
    norm_num
  · intro h
    unfold total_shares_formula
    rw [if_neg (not_lt.mpr h)]
  · intro h
    unfold total_shares_formula
    rw [if_pos h]

/-- C4 witness: the amended share-conversion theorem at net 5, unit 0,
raw configuration value absent. -/
theorem C4_witness :
    cmd_dashboard_total_shares 5 = 5 / SHARE_UNIT_ISK ∧
    total_shares_formula 0 5 = 0 ∧
    load_config_custom_share_unit_isk none = 1000000000 := by
  refine ⟨(C4_share_conversion 5 0 none).1, (C4_share_conversion 5 0 none).2.2.1 le_rfl, ?_⟩
  rw [(C4_share_conversion 5 0 none).2.2.2.2.1]
  rfl

end CorpLedger

namespace CorpLedger

/-- C5: for every historical sell order with non-null issuer and
price, the rebuild skips it when volume_total is NULL or when
sold = volume_total - (volume_remain or 0) is non-positive, and
otherwise emits exactly one in/market record for the issuer worth
sold * price * 0.01; non-historical or buy-side orders contribute no
market record. -/
theorem C5_market_rule (o : MarketOrder) (iss : Int) (p : ℚ)
    (hh : o.is_history = some 1) (hb : o.is_buy_order = some 0)
    (hi : o.issued_by = some iss) (hp : o.price = some p) :
    (o.volume_total = none → marketFlows [o] = []) ∧
    (∀ vt : Int, o.volume_total = some vt →
      (((vt : ℚ) - ((o.volume_remain.getD 0 : Int) : ℚ) ≤ 0 → marketFlows [o] = []) ∧
       (0 < (vt : ℚ) - ((o.volume_remain.getD 0 : Int) : ℚ) →
         marketFlows [o] =
           [{ character_id := iss, direction := "in", source := "market",
              contract_id := none, journal_esi_id := none,
              value_isk := ((vt : ℚ) - ((o.volume_remain.getD 0 : Int) : ℚ)) * p * (1 / 100),
              note := (marketNote o ((vt : ℚ) - ((o.volume_remain.getD 0 : Int) : ℚ))).take 200 }]))) ∧
    (∀ o' : MarketOrder, o'.is_history ≠ some 1 ∨ o'.is_buy_order ≠ some 0 →
      marketFlows [o'] = []) := by
  have hsel : marketSel o = true := by
    unfold marketSel
    rw [decide_eq_true_eq]
    exact ⟨hh, hb, by rw [hi]; simp, by rw [hp]; simp⟩
  have hflt : marketFlows [o] = marketEmit o := by
    unfold marketFlows
    rw [List.filter_cons, if_pos hsel]
    simp
  refine ⟨?_, ?_, ?_⟩
  · intro hvt
    rw [hflt]
    simp [marketEmit, hi, hp, hvt]
  · intro vt hvt
    constructor
    · intro hnp
      rw [hflt]
      simp only [marketEmit, hi, hp, hvt]
      rw [if_pos hnp]
    · intro hpos
      rw [hflt]
      simp only [marketEmit, hi, hp, hvt]
      rw [if_neg (not_le.mpr hpos)]
  · intro o' ho'
    have hsel' : ¬ (marketSel o' = true) := by
      unfold marketSel
      rw [decide_eq_true_eq]
      intro hcon
      rcases ho' with h | h
      · exact h hcon.1
      · exact h hcon.2.1
    unfold marketFlows
    rw [List.filter_cons, if_neg hsel']
    rfl

/-- C5 witness: the spec example (100 total, 20 remaining, price 1000)
yields one in/market record worth 80 * 1000 * 0.01 = 800. -/
theorem C5_witness :
    marketFlows [oMW] =
      [{ character_id := 5, direction := "in", source := "market",
         contract_id := none, journal_esi_id := none,
         value_isk := (((100 : Int) : ℚ) - ((20 : Int) : ℚ)) * 1000 * (1 / 100),
         note := (marketNote oMW (((100 : Int) : ℚ) - ((20 : Int) : ℚ))).take 200 }] ∧
    (((100 : Int) : ℚ) - ((20 : Int) : ℚ)) * 1000 * (1 / 100) = 800 := by
  constructor
  · exact ((C5_market_rule oMW 5 1000 rfl rfl rfl rfl).2.1 100 rfl).2 (by norm_num [oMW])
  · norm_num

/-- C6: every donation row with non-null member and amount yields
exactly one in/wallet record for the donor, worth the amount and
referencing the journal entry; rows missing either field yield
nothing, and the rebuild is a total function of its inputs, so no
error is raised. -/
theorem C6_wallet_rule (d : Donation) (cid : Int) (amt : ℚ)
    (hc : d.character_id = some cid) (ha : d.amount = some amt) :
    walletFlowsPer d =
      [{ character_id := cid, direction := "in", source := "wallet",
         contract_id := none, journal_esi_id := d.journal_esi_id,
         value_isk := amt, note := (d.description.getD "").take 200 }] ∧
    (∀ d' : Donation, d'.character_id = none ∨ d'.amount = none →
      walletFlowsPer d' = []) ∧
    (∀ ds : List Donation, walletFlows ds = ds.flatMap walletFlowsPer) := by
  refine ⟨?_, ?_, fun ds => rfl⟩
  · simp [walletFlowsPer, hc, ha]
  · intro d' h
    rcases h with h | h
    · cases ham : d'.amount <;> simp [walletFlowsPer, h, ham]
    · cases hcid : d'.character_id <;> simp [walletFlowsPer, h, hcid]

/-- C6 witness: a concrete donation row yields its single wallet
record, and a row with NULL member yields nothing. -/
theorem C6_witness :
    walletFlowsPer dW =
      [{ character_id := 42, direction := "in", source := "wallet",
         contract_id := none, journal_esi_id := some 777,
         value_isk := 1000, note := ("thanks" : String).take 200 }] ∧
    walletFlowsPer ⟨some 1, none, some 5, none⟩ = [] := by
  constructor
  · exact (C6_wallet_rule dW 42 1000 rfl rfl).1
  · exact (C6_wallet_rule dW 42 1000 rfl rfl).2.1 ⟨some 1, none, some 5, none⟩ (Or.inl rfl)

end CorpLedger

namespace CorpLedger

/-- C7: get_flow_totals returns the direction sums and their
difference, yields (0, 0, 0) on the empty ledger, its net equals the
sum of all per-member nets of get_member_net_values, and members
without records are absent from that mapping. -/
theorem C7_totals_consistency (l : List FlowRecord) :
    (get_flow_totals l).1 =
      ((l.filter fun r => decide (r.direction = "in")).map FlowRecord.value_isk).sum ∧
    (get_flow_totals l).2.1 =
      ((l.filter fun r => decide (r.direction = "out")).map FlowRecord.value_isk).sum ∧
    (get_flow_totals l).2.2 = (get_flow_totals l).1 - (get_flow_totals l).2.1 ∧
    get_flow_totals [] = (0, 0, 0) ∧
    (get_flow_totals l).2.2 = ((get_member_net_values l).map Prod.snd).sum ∧
    (∀ cid : Int, cid ∉ l.map FlowRecord.character_id →
      ∀ pr ∈ get_member_net_values l, pr.1 ≠ cid) := by
  refine ⟨sum_ite_eq_sum_filter _ l, sum_ite_eq_sum_filter _ l, rfl,
    by simp [get_flow_totals], ?_, ?_⟩
  · rw [totals_net_eq_sum_signed, member_net_values_sum]
  · intro cid hcid pr hpr
    unfold get_member_net_values at hpr
    rw [List.mem_map] at hpr
    obtain ⟨k, hk, hpk⟩ := hpr
    intro heq
    apply hcid
    have hk1 : pr.1 = k := by rw [← hpk]
    rw [← heq, hk1]
    exact (List.mem_dedup.mp hk)

/-- C7 witness: totals consistency evaluated on a three-record sample
ledger, with 99 absent from the mapping. -/
theorem C7_witness :
    (get_flow_totals flowSample).2.2 =
      ((get_member_net_values flowSample).map Prod.snd).sum ∧
    (∀ pr ∈ get_member_net_values flowSample, pr.1 ≠ 99) := by
  constructor
  · exact (C7_totals_consistency flowSample).2.2.2.2.1
  · exact (C7_totals_consistency flowSample).2.2.2.2.2 99 (by decide)

/-- C8: the rebuild transaction is atomic: under any failure oracle it
either surfaces an error and leaves the previously committed ledger
untouched, or commits exactly the fully recomputed ledger; no
partially-cleared or partially-populated ledger is ever committed. -/
theorem C8_rebuild_atomic (fail : Nat → Bool) (db : SourceTables) (s : DBState) :
    ((rebuild_tx fail db s).2 = s ∧ ∃ k, (rebuild_tx fail db s).1 = Except.error k) ∨
    ((rebuild_tx fail db s).2 = DBState.mk (rebuild_member_flows db) ∧
      (rebuild_tx fail db s).1 = Except.ok (DBState.mk (rebuild_member_flows db))) := by
  unfold rebuild_tx
  split
  · rename_i buf hrun
    have hbuf : buf = rebuild_member_flows db := by
      rw [runStmts_ok_eq_foldl fail (rebuildStmts db) 0 s.committed buf hrun]
      exact rebuildStmts_foldl db s.committed
    by_cases hfl : fail (rebuildStmts db).length = true
    · rw [if_pos hfl]
      exact Or.inl ⟨rfl, _, rfl⟩
    · rw [if_neg hfl]
      exact Or.inr ⟨by rw [hbuf], by rw [hbuf]⟩
  · rename_i k hrun
    exact Or.inl ⟨rfl, k, rfl⟩

/-- C9: a failure-free rebuild commits exactly the ledger derived from
the source tables, independently of the prior committed ledger, so
running it twice commits the same ledger and no stale record survives
except by recomputation. -/
theorem C9_rebuild_idempotent (db : SourceTables) (s1 s2 : DBState) :
    (rebuild_tx (fun _ => false) db s1).2.committed = rebuild_member_flows db ∧
    (rebuild_tx (fun _ => false) db
        ((rebuild_tx (fun _ => false) db s1).2)).2.committed =
      (rebuild_tx (fun _ => false) db s1).2.committed ∧
    (rebuild_tx (fun _ => false) db s1).2.committed =
      (rebuild_tx (fun _ => false) db s2).2.committed := by
  simp [rebuild_tx_nofail]

/-- C10 counterexample: a contract meeting every stated condition
(for_corporation 1, price 0, finished, non-null appraisal, non-null
issuer and assignee) with appraisal value 0 yields one Flow Record,
not three: the subsidy guard drops the Rule C-OUT pair. -/
theorem C10_counterexample :
    c10bad.for_corporation = some 1 ∧ c10bad.price = some 0 ∧
    c10bad.status = some "finished" ∧ c10bad.janice_immediate_split ≠ none ∧
    c10bad.issuer_id ≠ none ∧ c10bad.assignee_id ≠ none ∧
    (rebuild_member_flows db10bad).length ≠ 3 := by
  refine ⟨rfl, rfl, rfl, by decide, by decide, by decide, ?_⟩
  have hin : contractInFlows [c10bad] =
      [{ character_id := 7, direction := "in", source := "contract_in",
         contract_id := some c10bad.contract_id, journal_esi_id := none,
         value_isk := 0, note := "Donation contract to corp" }] := by
    rw [contractInFlows_eq_flatMap]
    simp [contractInPer_eval c10bad 7 0 (Or.inr rfl) rfl rfl rfl]
  have hout : contractOutFlows [c10bad] = [] := by
    rw [contractOutFlows_eq_flatMap]
    simp [contractOutPer_nil_of_nonpos c10bad 0 0 rfl rfl (by norm_num)]
  have hall : rebuild_member_flows db10bad =
      walletFlows [] ++ contractInFlows [c10bad] ++ contractOutFlows [c10bad] ++
        industryFlows [] ++ marketFlows [] := rfl
  rw [hall, hin, hout]
  decide

/-- C10 (amended): a contract that is organization-directed with price
exactly 0, status finished, a positive appraisal value, and non-null
issuer and assignee satisfies Rule C-IN and Rule C-OUT at once: one
rebuild emits exactly three records referencing it: in/contract_in of
the appraisal for the issuer, out/contract_out of the appraisal for
the assignee, and in/contract_out_subsidy of 10 percent of the
appraisal for the assignee. -/
theorem C10_overlap (db : SourceTables) (c : Contract) (iid aid : Int) (v : ℚ)
    (hmem : c ∈ db.contracts) (hnodup : (db.contracts.map Contract.contract_id).Nodup)
    (hfc : c.for_corporation = some 1) (hp : c.price = some 0)
    (hst : c.status = some "finished") (hj : c.janice_immediate_split = some v)
    (hv : 0 < v) (hi : c.issuer_id = some iid) (ha : c.assignee_id = some aid) :
    (rebuild_member_flows db).filter
      (fun r => decide (r.contract_id = some c.contract_id)) =
      [{ character_id := iid, direction := "in", source := "contract_in",
         contract_id := some c.contract_id, journal_esi_id := none,
         value_isk := v, note := "Donation contract to corp" },
       { character_id := aid, direction := "out", source := "contract_out",
         contract_id := some c.contract_id, journal_esi_id := none,
         value_isk := v, note := "Corp subsidy / payout" },
       { character_id := aid, direction := "in", source := "contract_out_subsidy",
         contract_id := some c.contract_id, journal_esi_id := none,
         value_isk := v * (1 / 10), note := "Corp Discount Credit" }] := by
  unfold rebuild_member_flows
  rw [List.filter_append, List.filter_append, List.filter_append, List.filter_append,
    walletFlows_filter_ref, industryFlows_filter_ref, marketFlows_filter_ref,
    contractInFlows_eq_flatMap, contractOutFlows_eq_flatMap,
    flatMap_filter_ref contractInPer contractInPer_ref db.contracts c hmem hnodup,
    flatMap_filter_ref contractOutPer contractOutPer_ref db.contracts c hmem hnodup,
    contractInPer_eval c iid v (Or.inr hp) hst hj hi,
    contractOutPer_pair c aid 0 v hfc hp hst hj ha (by rwa [sub_zero])]
  simp [sub_zero]

/-- C10 witness: the overlap evaluated on a single-contract table with
appraisal 200: three records worth 200, 200 and 20. -/
theorem C10_witness :
    (rebuild_member_flows db10w).filter
      (fun r => decide (r.contract_id = some (11 : Int))) =
      [{ character_id := 2, direction := "in", source := "contract_in",
         contract_id := some 11, journal_esi_id := none,
         value_isk := 200, note := "Donation contract to corp" },
       { character_id := 3, direction := "out", source := "contract_out",
         contract_id := some 11, journal_esi_id := none,
         value_isk := 200, note := "Corp subsidy / payout" },
       { character_id := 3, direction := "in", source := "contract_out_subsidy",
         contract_id := some 11, journal_esi_id := none,
         value_isk := (200 : ℚ) * (1 / 10), note := "Corp Discount Credit" }] ∧
    (200 : ℚ) * (1 / 10) = 20 := by
  constructor
  · exact C10_overlap db10w c10w 2 3 200 (List.mem_singleton.mpr rfl) (by decide)
      rfl rfl rfl rfl (by norm_num) rfl rfl
  · norm_num

end CorpLedger
